import Mathlib

/-!
Verification of the training `Engine` of the deep-object-reid repository
(`src/torchreid/engine/engine.py`), shallowly embedded in Lean 4.

Machine floats of the Python code are modelled by `ℚ`; NaN/Inf-ness of a
loss value is modelled by an explicit boolean supplied by the (abstract)
`forward_backward` collaborator.  Python exceptions are modelled by the
`PyError` type together with `Except` / `Option PyError` results.
-/

/-- Python exception kinds relevant to `engine.py`. -/
inductive PyError where
  | runtimeError (msg : String) : PyError
  | assertionError : PyError
  | lookupError : PyError
  | valueError : PyError
  | trialPruned : PyError
deriving DecidableEq, Repr

/-- `except RuntimeError` filter used at engine.py line 378. -/
def PyError.isRuntimeError : PyError → Bool
  | .runtimeError _ => true
  | _ => false

/-- engine.py line 34: the `EpochIntervalToValue` namedtuple with fields
`first`, `last`, `value_inside` and `value_outside`; the two bounds are
optional epoch indices. -/
structure EpochIntervalToValue (α : Type) where
  first : Option Int
  last : Option Int
  value_inside : α
  value_outside : α

/-- `epoch_interval.first is not None and epoch < epoch_interval.first`
(engine.py line 41). -/
def epochBelow : Option Int → Int → Bool
  | some f, epoch => decide (epoch < f)
  | none, _ => false

/-- `epoch_interval.last is not None and epoch > epoch_interval.last`
(engine.py line 43). -/
def epochAbove : Option Int → Int → Bool
  | some l, epoch => decide (l < epoch)
  | none, _ => false

/-- engine.py lines 36-46, `_get_cur_action_from_epoch_interval`: raises
`RuntimeError` when both bounds are `None`, otherwise returns `value_outside`
left of `first` or right of `last` and `value_inside` in between. -/
def get_cur_action_from_epoch_interval {α : Type} (ei : EpochIntervalToValue α)
    (epoch : Int) : Except PyError α :=
  cond (ei.first.isNone && ei.last.isNone)
    (Except.error (PyError.runtimeError "Wrong epoch_interval"))
    (cond (epochBelow ei.first epoch)
      (Except.ok ei.value_outside)
      (cond (epochAbove ei.last epoch)
        (Except.ok ei.value_outside)
        (Except.ok ei.value_inside)))

/-- The two engine fields consulted by `Engine._should_freeze_aux_models`
(engine.py lines 105, 109). -/
structure FreezeCfg where
  should_freeze_aux_models : Bool
  epoch_interval_for_aux_model_freeze : Option (EpochIntervalToValue Bool)

/-- engine.py lines 157-165, `Engine._should_freeze_aux_models`. -/
def should_freeze_aux_models_impl (cfg : FreezeCfg) (epoch : Int) :
    Except PyError Bool :=
  if cfg.should_freeze_aux_models = false then Except.ok false
  else
    match cfg.epoch_interval_for_aux_model_freeze with
    | none => Except.ok true
    | some ei => get_cur_action_from_epoch_interval ei epoch

/-- C3: with freezing enabled and a freeze interval whose bounds are both
non-null, the per-epoch freeze decision is `value_inside` for
`first ≤ e ≤ last` and `value_outside` for `e < first` or `e > last`. -/
theorem freeze_interval_decision (f l : Int) (vi vo : Bool) (e : Int) :
    (f ≤ e → e ≤ l →
      should_freeze_aux_models_impl
        ⟨true, some ⟨some f, some l, vi, vo⟩⟩ e = Except.ok vi) ∧
    (e < f ∨ l < e →
      should_freeze_aux_models_impl
        ⟨true, some ⟨some f, some l, vi, vo⟩⟩ e = Except.ok vo) := by
  constructor
  · intro hf hl
    simp [should_freeze_aux_models_impl, get_cur_action_from_epoch_interval,
      epochBelow, epochAbove, not_lt.mpr hf, not_lt.mpr hl]
  · rintro (h | h)
    · simp [should_freeze_aux_models_impl, get_cur_action_from_epoch_interval,
        epochBelow, epochAbove, h]
    · by_cases hef : e < f
      · simp [should_freeze_aux_models_impl, get_cur_action_from_epoch_interval,
          epochBelow, epochAbove, hef]
      · simp [should_freeze_aux_models_impl, get_cur_action_from_epoch_interval,
          epochBelow, epochAbove, h, hef]

/-- Witness for `freeze_interval_decision` at the interval `[2, 5]` with
values `true` inside / `false` outside, at epochs `3` (inside) and `7`
(outside). -/
theorem freeze_interval_decision_witness :
    should_freeze_aux_models_impl
        ⟨true, some ⟨some 2, some 5, true, false⟩⟩ 3 = Except.ok true ∧
    should_freeze_aux_models_impl
        ⟨true, some ⟨some 2, some 5, true, false⟩⟩ 7 = Except.ok false :=
  ⟨(freeze_interval_decision 2 5 true false 3).1 (by decide) (by decide),
   (freeze_interval_decision 2 5 true false 7).2 (Or.inr (by decide))⟩

/-- Modelled from the spec: `AverageMeter` (defined in
`torchreid/utils/avgmeter.py`, which is not among the provided sources) is a
"running/average statistics" meter: `update v` records a value and `avg` is
the running mean of the recorded values; a fresh meter starts at zero. -/
structure AverageMeter where
  val : ℚ
  sum : ℚ
  count : ℚ
  avg : ℚ
deriving DecidableEq, Repr

/-- A fresh `AverageMeter()` with all statistics reset to zero. -/
def AverageMeter.init : AverageMeter := ⟨0, 0, 0, 0⟩

/-- `AverageMeter.update(val)` with the default weight `n = 1`. -/
def AverageMeter.update (m : AverageMeter) (v : ℚ) : AverageMeter :=
  ⟨v, m.sum + v, m.count + 1, (m.sum + v) / (m.count + 1)⟩

/-- engine.py lines 404-406: `if accuracy >= test_acc.avg: test_acc.update(accuracy)`,
the monotonic-ratchet update of the smoothed test-accuracy tracker. -/
def ratchet_update (m : AverageMeter) (a : ℚ) : AverageMeter :=
  if m.avg ≤ a then m.update a else m

/-- Feeding a sequence of per-epoch accuracy values into a fresh tracker. -/
def ratchet_run (vals : List ℚ) : AverageMeter :=
  vals.foldl ratchet_update AverageMeter.init

/-- C4: the smoothed test-accuracy tracker is a monotonic ratchet: a new value
is incorporated into the running average iff it is `≥` the current average,
otherwise the meter is unchanged; and feeding the strictly decreasing sequence
`[0.9, 0.8, 0.7]` leaves the tracked average at `0.9` after the first update. -/
theorem test_acc_ratchet :
    (∀ (m : AverageMeter) (a : ℚ), m.avg ≤ a → ratchet_update m a = m.update a) ∧
    (∀ (m : AverageMeter) (a : ℚ), a < m.avg → ratchet_update m a = m) ∧
    (ratchet_run [9/10, 8/10, 7/10]).avg = 9/10 := by
  refine ⟨fun m a h => ?_, fun m a h => ?_, by
    norm_num [ratchet_run, ratchet_update, AverageMeter.update, AverageMeter.init]⟩
  · simp [ratchet_update, h]
  · simp [ratchet_update, not_le.mpr h]

/-- Witness for `test_acc_ratchet`: a concrete incorporated update and a
concrete ignored update. -/
theorem test_acc_ratchet_witness :
    ratchet_update ⟨1/2, 1/2, 1, 1/2⟩ (3/4) = AverageMeter.update ⟨1/2, 1/2, 1, 1/2⟩ (3/4) ∧
    ratchet_update ⟨1/2, 1/2, 1, 1/2⟩ (1/4) = ⟨1/2, 1/2, 1, 1/2⟩ :=
  ⟨test_acc_ratchet.1 ⟨1/2, 1/2, 1, 1/2⟩ (3/4) (by norm_num),
   test_acc_ratchet.2.1 ⟨1/2, 1/2, 1, 1/2⟩ (1/4) (by norm_num)⟩

/-- Round-half-to-even on rationals, the ideal-arithmetic semantics of
`np.round` / Python `round` (rounding ties to even). -/
def roundHalfEven (q : ℚ) : Int :=
  if q - ⌊q⌋ < 1/2 then ⌊q⌋
  else if 1/2 < q - ⌊q⌋ then ⌊q⌋ + 1
  else if Even ⌊q⌋ then ⌊q⌋ else ⌊q⌋ + 1

/-- `np.round(x, d)` / `round(x, d)`: round to `d` decimal places. -/
def np_round_to (q : ℚ) (d : Nat) : ℚ :=
  (roundHalfEven (q * 10 ^ d) : ℚ) / 10 ^ d

/-- The only engine state read and written by
`Engine.exit_on_plateau_and_choose_best`. -/
structure PlateauState where
  best_metric : ℚ
deriving DecidableEq, Repr

/-- engine.py lines 281-295, `Engine.exit_on_plateau_and_choose_best`: returns
the updated state together with the pair `(should_exit, is_candidate_for_best)`. -/
def exit_on_plateau_and_choose_best (s : PlateauState) (accuracy : ℚ) :
    PlateauState × Bool × Bool :=
  let current_metric := np_round_to accuracy 4
  if s.best_metric ≤ current_metric then (⟨current_metric⟩, false, true)
  else (s, false, false)

/-- C6: the base `exit_on_plateau_and_choose_best` rounds the accuracy to 4
decimal places; if the rounded value is `≥` the best metric so far it stores it
as the new best and reports a best candidate, otherwise it changes nothing and
reports no candidate; `should_exit` is always `false`. -/
theorem exit_on_plateau_spec (s : PlateauState) (a : ℚ) :
    (exit_on_plateau_and_choose_best s a).2.1 = false ∧
    (s.best_metric ≤ np_round_to a 4 →
      exit_on_plateau_and_choose_best s a = (⟨np_round_to a 4⟩, false, true)) ∧
    (np_round_to a 4 < s.best_metric →
      exit_on_plateau_and_choose_best s a = (s, false, false)) := by
  refine ⟨?_, fun h => ?_, fun h => ?_⟩
  · by_cases h : s.best_metric ≤ np_round_to a 4 <;>
      simp [exit_on_plateau_and_choose_best, h]
  · simp [exit_on_plateau_and_choose_best, h]
  · simp [exit_on_plateau_and_choose_best, not_le.mpr h]

/-- Witness for `exit_on_plateau_spec`: with best metric `1/2`, the accuracy
`0.75` is a new best and the accuracy `0.25` is not. -/
theorem exit_on_plateau_spec_witness :
    exit_on_plateau_and_choose_best ⟨1/2⟩ (3/4) = (⟨np_round_to (3/4) 4⟩, false, true) ∧
    exit_on_plateau_and_choose_best ⟨1/2⟩ (1/4) = (⟨1/2⟩, false, false) :=
  ⟨(exit_on_plateau_spec ⟨1/2⟩ (3/4)).2.1 (by norm_num [np_round_to, roundHalfEven]),
   (exit_on_plateau_spec ⟨1/2⟩ (1/4)).2.2 (by norm_num [np_round_to, roundHalfEven])⟩

/-- The engine state touched by the LR-finder machinery
(`param_history`, the main model/optimizer states, the `StateCacher` entries
under keys "model"/"optimizer", the learning rate of the main optimizer and the
random seed); the state dicts themselves are abstract (`σ`).
The `StateCacher` itself (`torchreid/utils/tools.py`, not among the provided
sources) is modelled from the spec as a keyed snapshot store for the
model/optimizer state dicts, here the two `cached_*` fields. -/
structure LrEngineState (σ : Type) where
  param_history : Finset ℚ
  model_state : σ
  optim_state : σ
  cached_model : σ
  cached_optim : σ
  main_lr : ℚ
  rng_seed : Int
  seed : Int

/-- engine.py lines 480-488, `Engine.backup_model`: snapshot the state dicts
of the main model and its optimizer into the state cacher. -/
def backup_model {σ : Type} (s : LrEngineState σ) : LrEngineState σ :=
  { s with cached_model := s.model_state, cached_optim := s.optim_state }

/-- engine.py lines 490-496, `Engine.restore_model`: reload the state dicts
of the main model and its optimizer from the state cacher and reset the
random seed. -/
def restore_model {σ : Type} (s : LrEngineState σ) : LrEngineState σ :=
  { s with model_state := s.cached_model, optim_state := s.cached_optim,
           rng_seed := s.seed }

/-- engine.py lines 467-478, `Engine.configure_lr_finder`.  `trial = none`
models `trial is None`; `trial = some lr` models a trial whose
`suggest_float` call proposed the learning rate `lr`.  A duplicate proposal
restores the cached state and raises `optuna.exceptions.TrialPruned`; a new
proposal is remembered in `param_history` and written (rounded to 6 decimal
places) into every parameter group of the main optimizer. -/
def configure_lr_finder {σ : Type} (s : LrEngineState σ) (trial : Option ℚ) :
    LrEngineState σ × Option PyError :=
  match trial with
  | none => (s, none)
  | some lr =>
    if lr ∈ s.param_history then (restore_model s, some PyError.trialPruned)
    else ({ s with param_history := insert lr s.param_history,
                   main_lr := np_round_to lr 6 }, none)

/-- C5: proposing an already-tried learning rate restores the cached
model/optimizer state and raises `TrialPruned`; a new value is added to the
remembered set; and the remembered set only ever grows (it persists for the
lifetime of the search). -/
theorem lr_finder_duplicate_pruned {σ : Type} (s : LrEngineState σ) (lr : ℚ) :
    (lr ∈ s.param_history →
      configure_lr_finder s (some lr) =
        ({ s with model_state := s.cached_model, optim_state := s.cached_optim,
                  rng_seed := s.seed }, some PyError.trialPruned)) ∧
    (lr ∉ s.param_history →
      configure_lr_finder s (some lr) =
        ({ s with param_history := insert lr s.param_history,
                  main_lr := np_round_to lr 6 }, none)) ∧
    (∀ t : Option ℚ, s.param_history ⊆ (configure_lr_finder s t).1.param_history) := by
  refine ⟨fun h => ?_, fun h => ?_, fun t => ?_⟩
  · simp [configure_lr_finder, h, restore_model]
  · simp [configure_lr_finder, h]
  · match t with
    | none => exact Finset.Subset.refl _
    | some lr' =>
      by_cases h : lr' ∈ s.param_history
      · simp [configure_lr_finder, h, restore_model]
      · simp only [configure_lr_finder, h, if_false]
        exact Finset.subset_insert _ _

/-- Witness for `lr_finder_duplicate_pruned`: with history `{1/10}`, proposing
`1/10` again prunes after a rollback, and proposing `1/5` extends the set. -/
theorem lr_finder_duplicate_pruned_witness :
    configure_lr_finder (σ := Unit) ⟨{1/10}, (), (), (), (), 1/10, 3, 5⟩ (some (1/10)) =
      (⟨{1/10}, (), (), (), (), 1/10, 5, 5⟩, some PyError.trialPruned) ∧
    configure_lr_finder (σ := Unit) ⟨{1/10}, (), (), (), (), 1/10, 3, 5⟩ (some (1/5)) =
      (⟨insert (1/5) {1/10}, (), (), (), (), np_round_to (1/5) 6, 3, 5⟩, none) :=
  ⟨(lr_finder_duplicate_pruned ⟨{1/10}, (), (), (), (), 1/10, 3, 5⟩ (1/10)).1
      (Finset.mem_singleton.mpr rfl),
   (lr_finder_duplicate_pruned ⟨{1/10}, (), (), (), (), 1/10, 3, 5⟩ (1/5)).2.1
      (by simp only [Finset.mem_singleton]; norm_num)⟩

/-- The possible values of the `names` argument of `Engine.get_model_names`:
`None`, a single (string) name, or a list of names. -/
inductive NamesArg where
  | noneArg
  | one (n : String)
  | many (ns : List String)

/-- The `for name in names: assert name in names_real` loop of
`Engine.get_model_names` (engine.py lines 200-201): `AssertionError` at the
first unregistered name. -/
def assert_all_registered (names_real : List String) : List String → Option PyError
  | [] => none
  | n :: rest =>
    if n ∈ names_real then assert_all_registered names_real rest
    else some PyError.assertionError

/-- engine.py lines 195-203, `Engine.get_model_names`: with no argument the
registered names are returned in insertion order; a single name is wrapped in
a list; a requested subset is validated name by name. -/
def get_model_names (names_real : List String) (names : NamesArg) :
    Except PyError (List String) :=
  match names with
  | .noneArg => Except.ok names_real
  | .one n =>
    match assert_all_registered names_real [n] with
    | some e => Except.error e
    | none => Except.ok [n]
  | .many ns =>
    match assert_all_registered names_real ns with
    | some e => Except.error e
    | none => Except.ok ns

/-- The model name chosen for the `model_id`-th registered model in
`Engine.__init__` (engine.py line 131). -/
def model_name_for (model_id : Nat) : String :=
  if model_id = 0 then "main_model" else "aux_model_" ++ toString model_id

/-- The registry key order produced by the registration loop of
`Engine.__init__` (engine.py lines 130-132): the main model first, then the
auxiliary models in order. -/
def registry_names (num_models : Nat) : List String :=
  (List.range num_models).map model_name_for

theorem assert_all_registered_eq_none (names_real : List String) :
    ∀ ns : List String,
      assert_all_registered names_real ns = none ↔ ∀ n ∈ ns, n ∈ names_real := by
  intro ns
  induction ns with
  | nil => simp [assert_all_registered]
  | cons n rest ih =>
    by_cases h : n ∈ names_real
    · simp [assert_all_registered, h, ih]
    · simp [assert_all_registered, h]

theorem assert_all_registered_of_missing (names_real : List String) :
    ∀ ns : List String, (∃ n ∈ ns, n ∉ names_real) →
      assert_all_registered names_real ns = some PyError.assertionError := by
  intro ns
  induction ns with
  | nil => simp
  | cons n rest ih =>
    rintro ⟨m, hm, hmiss⟩
    by_cases h : n ∈ names_real
    · rcases List.mem_cons.mp hm with rfl | hm'
      · exact absurd h hmiss
      · simp only [assert_all_registered, h, if_true]
        exact ih ⟨m, hm', hmiss⟩
    · simp [assert_all_registered, h]

/-- Counterexample to C9 as stated: requesting the unregistered name
`"ghost"` fails with `AssertionError` (a bare Python `assert`), not with a
`LookupError`. -/
theorem get_model_names_not_lookupError :
    get_model_names ["main_model"] (NamesArg.many ["ghost"]) =
        Except.error PyError.assertionError ∧
    get_model_names ["main_model"] (NamesArg.many ["ghost"]) ≠
        Except.error PyError.lookupError := by
  constructor <;> simp [get_model_names, assert_all_registered]

/-- C9 (amended): `get_model_names` with no argument returns all registered
names in insertion order (main model first); a requested subset is validated
and returned as requested; an unregistered requested name fails with
`AssertionError` (raised by a bare `assert`, not a `LookupError`). -/
theorem get_model_names_spec (names_real ns : List String) :
    get_model_names names_real NamesArg.noneArg = Except.ok names_real ∧
    (∀ k : Nat, 0 < k → (registry_names k).head? = some "main_model") ∧
    ((∀ n ∈ ns, n ∈ names_real) →
      get_model_names names_real (NamesArg.many ns) = Except.ok ns) ∧
    ((∃ n ∈ ns, n ∉ names_real) →
      get_model_names names_real (NamesArg.many ns) =
        Except.error PyError.assertionError) := by
  refine ⟨rfl, fun k hk => ?_, fun h => ?_, fun h => ?_⟩
  · match k, hk with
    | k + 1, _ =>
      simp [registry_names, List.range_succ_eq_map, model_name_for]
  · simp [get_model_names, (assert_all_registered_eq_none names_real ns).mpr h]
  · simp [get_model_names, assert_all_registered_of_missing names_real ns h]

/-- Witness for `get_model_names_spec` on the registry
`["main_model", "aux_model_1"]`: the valid subset `["aux_model_1"]` is
returned and the subset `["ghost"]` fails the assertion. -/
theorem get_model_names_spec_witness :
    get_model_names ["main_model", "aux_model_1"] (NamesArg.many ["aux_model_1"]) =
        Except.ok ["aux_model_1"] ∧
    get_model_names ["main_model", "aux_model_1"] (NamesArg.many ["ghost"]) =
        Except.error PyError.assertionError ∧
    (registry_names 2).head? = some "main_model" :=
  ⟨(get_model_names_spec ["main_model", "aux_model_1"] ["aux_model_1"]).2.2.1
      (by decide),
   (get_model_names_spec ["main_model", "aux_model_1"] ["ghost"]).2.2.2
      ⟨"ghost", by decide, by decide⟩,
   (get_model_names_spec ["main_model", "aux_model_1"] []).2.1 2 (by decide)⟩

/-- engine.py lines 615-626, the mixup branch (`aug_type == "mixup"`) of
`Engine._apply_batch_augmentation`.  A batch of `n` images over an abstract
pixel-index type `Pix` is a function `Fin n → Pix → ℚ`.  The random draws of
the environment are passed in explicitly: `r` is the `np.random.rand(1)` sample,
`lam` the `np.random.beta(alpha, alpha)` sample and `index` the
`torch.randperm` permutation.  The result is the (possibly mixed) batch
together with the recorded `self.aug_index` and `self.lam`. -/
def apply_mixup {n : Nat} {Pix : Type} (alpha aug_prob r lam : ℚ)
    (index : Fin n → Fin n) (imgs : Fin n → Pix → ℚ) :
    (Fin n → Pix → ℚ) × Option (Fin n → Fin n) × Option ℚ :=
  if 0 < alpha ∧ r ≤ aug_prob then
    (fun i p => lam * imgs i p + (1 - lam) * imgs (index i) p, some index, some lam)
  else (imgs, none, none)

/-- Counterexample to C8 as stated: mixing with `λ = 1` inside the mixup
branch (`alpha = 1 > 0`, `r = 0 ≤ aug_prob = 1`, permutation swapping the two
images) does record a permutation: the stored `aug_index` is not `None`. -/
theorem mixup_lambda_one_perm_recorded :
    (@apply_mixup 2 Unit 1 1 0 1 ![1, 0] (fun _ _ => 0)).2.1 ≠ none := by
  have h : (0 : ℚ) < 1 ∧ (0 : ℚ) ≤ 1 := by norm_num
  simp [apply_mixup, h]

/-- C8 (amended): inside the mixup branch, `λ = 1` returns the batch of images
unchanged but still records the drawn permutation and `λ = 1`; the stored
permutation is `None` (and the batch also unchanged) exactly when the branch
is skipped, i.e. when `alpha ≤ 0` or the probability draw exceeds
`aug_prob`. -/
theorem mixup_lambda_one_behavior {n : Nat} {Pix : Type} (alpha aug_prob r : ℚ)
    (index : Fin n → Fin n) (imgs : Fin n → Pix → ℚ) :
    (0 < alpha ∧ r ≤ aug_prob →
      (apply_mixup alpha aug_prob r 1 index imgs).1 = imgs ∧
      (apply_mixup alpha aug_prob r 1 index imgs).2.1 = some index ∧
      (apply_mixup alpha aug_prob r 1 index imgs).2.2 = some 1) ∧
    (∀ lam : ℚ, ¬ (0 < alpha ∧ r ≤ aug_prob) →
      apply_mixup alpha aug_prob r lam index imgs = (imgs, none, none)) := by
  refine ⟨fun h => ?_, fun lam h => ?_⟩
  · refine ⟨?_, by simp [apply_mixup, h], by simp [apply_mixup, h]⟩
    have h1 : apply_mixup alpha aug_prob r 1 index imgs =
        (fun i p => 1 * imgs i p + (1 - 1) * imgs (index i) p,
          some index, some 1) := by
      simp only [apply_mixup, if_pos h]
    rw [h1]
    funext i p
    ring
  · simp [apply_mixup, h]

/-- Witness for `mixup_lambda_one_behavior`: the branch-taken case at
`alpha = 1`, `aug_prob = 1`, `r = 0` with a swap permutation of two one-pixel
images, and the skipped case at `alpha = 0`. -/
theorem mixup_lambda_one_behavior_witness :
    (@apply_mixup 2 Unit 1 1 0 1 ![1, 0] (fun _ _ => 0)).1 = (fun _ _ => 0) ∧
    (@apply_mixup 2 Unit 1 1 0 1 ![1, 0] (fun _ _ => 0)).2.1 = some ![1, 0] ∧
    (@apply_mixup 2 Unit 0 1 0 (1/2) ![1, 0] (fun _ _ => 0)) =
      ((fun _ _ => 0), none, none) :=
  ⟨((mixup_lambda_one_behavior 1 1 0 ![1, 0] (fun _ _ => 0)).1 (by norm_num)).1,
   ((mixup_lambda_one_behavior 1 1 0 ![1, 0] (fun _ _ => 0)).1 (by norm_num)).2.1,
   (mixup_lambda_one_behavior 0 1 0 ![1, 0] (fun _ _ => 0)).2 (1/2) (by norm_num)⟩

/-- Python `max(list)`: `ValueError` (here `none`) on an empty list, otherwise
the left-to-right maximum where a later element replaces the current one only
when strictly greater (ties keep the earlier element). -/
def py_max_list : List ℚ → Option ℚ
  | [] => none
  | x :: xs => some (xs.foldl (fun acc y => if acc < y then y else acc) x)

/-- Python `list.index(x)`: the index of the first element equal to `x`
(the length of the list if absent). -/
def py_index (x : ℚ) : List ℚ → Nat
  | [] => 0
  | y :: ys => if y = x then 0 else py_index x ys + 1

/-- The evaluation loop of `Engine.test` (engine.py lines 676-693) over the
list of `(model name, top-1 score)` pairs to evaluate: auxiliary models are
skipped before the final epoch, and only the scores of the main model and of
the EMA model are appended to `top1`. -/
def eval_loop (main_name : String) (test_only : Bool) (epoch max_epoch : Int) :
    List (String × ℚ) → List ℚ
  | [] => []
  | (name, score) :: rest =>
    if (name ≠ main_name ∧ name ≠ "EMA model") ∧ test_only = false ∧
        epoch ≠ max_epoch - 1 then
      eval_loop main_name test_only epoch max_epoch rest
    else
      (if name = main_name ∨ name = "EMA model" then [score] else []) ++
        eval_loop main_name test_only epoch max_epoch rest

/-- engine.py lines 647-695, `Engine.test`: the registered models (`reg`,
as `(name, top-1 score)` pairs in registry order) are extended with the EMA
model when EMA is enabled and this is neither an LR-finder run nor a
test-only run; the scores collected by `eval_loop` yield
`(max(top1), top1.index(max(top1)))`. -/
def test_model (main_name : String) (reg : List (String × ℚ)) (ema_score : ℚ)
    (use_ema lr_finder test_only : Bool) (epoch max_epoch : Int) :
    Except PyError (ℚ × Nat) :=
  let models_to_eval := reg ++
    (if use_ema && !lr_finder && !test_only then [("EMA model", ema_score)] else [])
  let top1 := eval_loop main_name test_only epoch max_epoch models_to_eval
  match py_max_list top1 with
  | none => Except.error PyError.valueError
  | some m => Except.ok (m, py_index m top1)

theorem eval_loop_skips_aux (main_name : String) (epoch max_epoch : Int)
    (hep : epoch ≠ max_epoch - 1) :
    ∀ (auxreg : List (String × ℚ)) (tail : List (String × ℚ)),
      (∀ p ∈ auxreg, p.1 ≠ main_name ∧ p.1 ≠ "EMA model") →
      eval_loop main_name false epoch max_epoch (auxreg ++ tail) =
        eval_loop main_name false epoch max_epoch tail := by
  intro auxreg
  induction auxreg with
  | nil => simp
  | cons p rest ih =>
    intro tail h
    obtain ⟨h1, h2⟩ := h p (List.mem_cons_self p rest)
    have := ih tail (fun q hq => h q (List.mem_cons_of_mem p hq))
    simp [eval_loop, h1, h2, hep, this]

/-- C10: with EMA enabled, in a non-final, non-test-only, non-LR-finder epoch
`Engine.test` evaluates exactly the main model and the EMA model, returns the
maximum of their two top-1 scores, and selects the EMA variant (index 1) only
when the EMA score is strictly higher; on an exact tie the main model
(index 0) is selected. -/
theorem ema_selection (main_name : String) (s_main : ℚ)
    (auxreg : List (String × ℚ)) (ema : ℚ) (epoch max_epoch : Int)
    (hmain : main_name ≠ "EMA model")
    (haux : ∀ p ∈ auxreg, p.1 ≠ main_name ∧ p.1 ≠ "EMA model")
    (hep : epoch ≠ max_epoch - 1) :
    test_model main_name ((main_name, s_main) :: auxreg) ema true false false
        epoch max_epoch =
      Except.ok (max s_main ema, if s_main < ema then 1 else 0) := by
  have hloop : eval_loop main_name false epoch max_epoch
      ((main_name, s_main) :: (auxreg ++ [("EMA model", ema)])) =
      [s_main, ema] := by
    simp only [eval_loop]
    rw [if_neg (by simp)]
    rw [if_pos (by exact Or.inl trivial),
      eval_loop_skips_aux main_name epoch max_epoch hep auxreg
        [("EMA model", ema)] haux]
    simp [eval_loop]
  have hdef : test_model main_name ((main_name, s_main) :: auxreg) ema true
      false false epoch max_epoch =
      (match py_max_list (eval_loop main_name false epoch max_epoch
          ((main_name, s_main) :: (auxreg ++ [("EMA model", ema)]))) with
        | none => Except.error PyError.valueError
        | some m => Except.ok (m, py_index m (eval_loop main_name false epoch
            max_epoch ((main_name, s_main) :: (auxreg ++ [("EMA model", ema)]))))) :=
    rfl
  rw [hdef, hloop]
  simp only [py_max_list, List.foldl]
  by_cases hlt : s_main < ema
  · rw [if_pos hlt, max_eq_right hlt.le, if_pos hlt]
    simp [py_index, ne_of_lt hlt]
  · rw [if_neg hlt, max_eq_left (not_lt.mp hlt), if_neg hlt]
    simp [py_index]

/-- Witness for `ema_selection`: registry `main_model` (score `1/2`) plus one
auxiliary model, EMA score `3/4`, at epoch `0` of `3`: the EMA model wins and
index `1` (the EMA variant) is reported. -/
theorem ema_selection_witness :
    test_model "main_model" [("main_model", 1/2), ("aux_model_1", 1)] (3/4)
        true false false 0 3 = Except.ok (max (1/2) (3/4), 1) := by
  have h := ema_selection "main_model" (1/2) [("aux_model_1", 1)] (3/4) 0 3
    (by decide) (by intro p hp; simp at hp; simp [hp]) (by decide)
  rw [h]
  norm_num

/-- Observable events of `Engine.run`: a `forward_backward` invocation on a
batch, a caught epoch-level `RuntimeError` (the `except` branch at engine.py
lines 378-380), and an evaluation (`Engine.test`) call. -/
inductive Ev where
  | fwdbwd (epoch batch : Nat)
  | trainError (epoch : Nat)
  | test (epoch : Nat)
deriving DecidableEq, Repr

/-- The epoch an event belongs to. -/
def Ev.epochOf : Ev → Nat
  | .fwdbwd e _ => e
  | .trainError e => e
  | .test e => e

/-- `[s, s+1, ..., s+k-1]`, the Python `range(s, s+k)`. -/
def nat_range (s : Nat) : Nat → List Nat
  | 0 => []
  | k + 1 => s :: nat_range (s + 1) k

theorem mem_nat_range {e : Nat} : ∀ {s k : Nat}, e ∈ nat_range s k ↔ s ≤ e ∧ e < s + k := by
  intro s k
  induction k generalizing s with
  | zero => simp [nat_range]
  | succ k ih =>
    simp only [nat_range, List.mem_cons, ih]
    omega

/-- The parameters and collaborator behavior of one call of `Engine.run`
(with `lr_finder` disabled, no compression controller, no performance monitor
and no tensorboard writer — collaborators whose calls do not influence the
control flow modelled here).  `lossIsNanOrInf e b` tells whether the main
main-model loss returned by the abstract `forward_backward` for batch `b` of
epoch `e` is NaN or infinite; `accVal e` is the top-1 accuracy `Engine.test`
reports in epoch `e`; `stopAfterBatch` / `stopAfterTrain` model the optional
`stop_callback.check_stop()` polls. -/
structure EngineP where
  start_epoch : Nat
  max_epoch : Nat
  num_batches : Nat
  start_eval : Nat
  eval_freq : Int
  early_stopping : Bool
  target_metric_is_test_acc : Bool
  freeze : FreezeCfg
  lossIsNanOrInf : Nat → Nat → Bool
  accVal : Nat → ℚ
  stopAfterBatch : Nat → Nat → Bool
  stopAfterTrain : Nat → Bool

/-- The batch loop of `Engine.train` (engine.py lines 522-572) over the list
of remaining batch indices: run `forward_backward`, raise `RuntimeError` if
the main loss is NaN or infinite, and break on a stop signal; returns the
`forward_backward` events in execution order and the uncaught exception, if
any. -/
def batch_loop (p : EngineP) (epoch : Nat) : List Nat → List Ev × Option PyError
  | [] => ([], none)
  | b :: rest =>
    if p.lossIsNanOrInf epoch b then
      ([Ev.fwdbwd epoch b],
        some (PyError.runtimeError "Loss is NaN or Inf, exiting the training..."))
    else if p.stopAfterBatch epoch b then ([Ev.fwdbwd epoch b], none)
    else
      let r := batch_loop p epoch rest
      (Ev.fwdbwd epoch b :: r.1, r.2)

/-- engine.py lines 498-574, `Engine.train`: the freeze decision is evaluated
(twice, lines 507 and 517) before the batch loop starts, so a `RuntimeError`
from `_get_cur_action_from_epoch_interval` escapes before any
`forward_backward` call; then the batch loop runs. -/
def train_model (p : EngineP) (epoch : Nat) : List Ev × Option PyError :=
  match should_freeze_aux_models_impl p.freeze epoch with
  | Except.error e => ([], some e)
  | Except.ok _ =>
    match should_freeze_aux_models_impl p.freeze epoch with
    | Except.error e => ([], some e)
    | Except.ok _ => batch_loop p epoch (nat_range 0 p.num_batches)

/-- The evaluation decision of engine.py lines 393-397. -/
def should_test (p : EngineP) (epoch : Nat) : Bool :=
  (decide ((epoch + 1 : Int) ≥ p.start_eval) && decide (0 < p.eval_freq)
      && decide ((epoch + 1 : Int) % p.eval_freq = 0)
      && decide ((epoch + 1 : Int) ≠ p.max_epoch))
    || decide ((epoch : Int) = (p.max_epoch : Int) - 1)

/-- The mutable loop state of `Engine.run`: the event log, the `accuracy`
variable (engine.py line 359), the `test_acc` meter and the best metric of
`exit_on_plateau_and_choose_best`. -/
structure RunState where
  events : List Ev
  accuracy : ℚ
  test_acc : AverageMeter
  best_metric : ℚ

/-- The state of `Engine.run` just before the epoch loop (engine.py
lines 358-359, `best_metric` from line 88). -/
def initRunState : RunState :=
  ⟨[], 0, AverageMeter.init, 0⟩

/-- The epoch loop of `Engine.run` (engine.py lines 363-440) over the list of
remaining epoch indices, with `lr_finder` disabled: per epoch, `train` inside
`try/except RuntimeError` (a caught error logs and breaks the loop), the stop
poll, the evaluation decision, the test-accuracy ratchet and
`exit_on_plateau_and_choose_best` (whose `should_exit` is always `false` in
the base engine, so the early-stopping break never fires).  The scheduler
step (`update_lr`) and checkpointing (`save_model`) mutate only external
collaborators and are not part of this state.  Returns the final state and
the uncaught exception, if any. -/
def run_epochs (p : EngineP) : List Nat → RunState → RunState × Option PyError
  | [], s => (s, none)
  | e :: rest, s =>
    let tr := train_model p e
    let s1 : RunState := { s with events := s.events ++ tr.1 }
    match tr.2 with
    | some err =>
      if err.isRuntimeError then
        ({ s1 with events := s1.events ++ [Ev.trainError e] }, none)
      else (s1, some err)
    | none =>
      if p.stopAfterTrain e then (s1, none)
      else
        let doTest := should_test p e
        let acc := if doTest then p.accVal e else s1.accuracy
        let s2 : RunState := { s1 with
          events := s1.events ++ (if doTest then [Ev.test e] else []),
          accuracy := acc }
        let meter := ratchet_update s2.test_acc acc
        let pl := exit_on_plateau_and_choose_best ⟨s2.best_metric⟩ acc
        run_epochs p rest
          { s2 with test_acc := meter, best_metric := pl.1.best_metric }

/-- engine.py lines 297-453, `Engine.run` with `lr_finder` disabled: the two
entry assertions (lines 354-356), then the epoch loop over
`range(start_epoch, max_epoch)`. -/
def run_model (p : EngineP) : RunState × Option PyError :=
  if p.start_epoch = p.max_epoch then (initRunState, some PyError.assertionError)
  else if (p.early_stopping || p.target_metric_is_test_acc) && decide (p.eval_freq ≠ 1) then
    (initRunState, some PyError.assertionError)
  else run_epochs p (nat_range p.start_epoch (p.max_epoch - p.start_epoch)) initRunState

/-- The events observable in one `Engine.run` call. -/
def run_events (p : EngineP) : List Ev := (run_model p).1.events

theorem batch_loop_mem (p : EngineP) (e : Nat) :
    ∀ (bs : List Nat) (ev : Ev), ev ∈ (batch_loop p e bs).1 →
      ∃ b ∈ bs, ev = Ev.fwdbwd e b := by
  intro bs
  induction bs with
  | nil => simp [batch_loop]
  | cons b rest ih =>
    intro ev hev
    by_cases hbad : p.lossIsNanOrInf e b = true
    · simp [batch_loop, hbad] at hev
      exact ⟨b, List.mem_cons_self b rest, hev⟩
    · by_cases hstop : p.stopAfterBatch e b = true
      · simp [batch_loop, hbad, hstop] at hev
        exact ⟨b, List.mem_cons_self b rest, hev⟩
      · simp only [batch_loop, if_neg hbad, if_neg hstop, List.mem_cons] at hev
        rcases hev with rfl | h'
        · exact ⟨b, List.mem_cons_self b rest, rfl⟩
        · obtain ⟨b', hb', rfl⟩ := ih ev h'
          exact ⟨b', List.mem_cons_of_mem b hb', rfl⟩

theorem batch_loop_err (p : EngineP) (e : Nat) :
    ∀ bs : List Nat, (batch_loop p e bs).2 = none ∨
      (batch_loop p e bs).2 =
        some (PyError.runtimeError "Loss is NaN or Inf, exiting the training...") := by
  intro bs
  induction bs with
  | nil => left; rfl
  | cons b rest ih =>
    by_cases hbad : p.lossIsNanOrInf e b = true
    · right; simp [batch_loop, hbad]
    · by_cases hstop : p.stopAfterBatch e b = true
      · left; simp [batch_loop, hbad, hstop]
      · simpa only [batch_loop, hbad, hstop, if_false] using ih

theorem get_cur_action_err {α : Type} (ei : EpochIntervalToValue α) (epoch : Int)
    (err : PyError)
    (h : get_cur_action_from_epoch_interval ei epoch = Except.error err) :
    err.isRuntimeError = true := by
  unfold get_cur_action_from_epoch_interval at h
  cases hb : (ei.first.isNone && ei.last.isNone) with
  | true =>
    rw [hb] at h
    simp only [cond_true, Except.error.injEq] at h
    rw [← h]
    rfl
  | false =>
    rw [hb] at h
    simp only [cond_false] at h
    cases h1 : epochBelow ei.first epoch <;> rw [h1] at h <;>
      [skip; exact absurd h (by simp)]
    simp only [cond_false] at h
    cases h2 : epochAbove ei.last epoch <;> rw [h2] at h <;> simp at h

theorem should_freeze_err (cfg : FreezeCfg) (epoch : Int) (err : PyError)
    (h : should_freeze_aux_models_impl cfg epoch = Except.error err) :
    err.isRuntimeError = true := by
  unfold should_freeze_aux_models_impl at h
  by_cases hflag : cfg.should_freeze_aux_models = false
  · simp [hflag] at h
  · rw [if_neg hflag] at h
    cases hint : cfg.epoch_interval_for_aux_model_freeze with
    | none => rw [hint] at h; exact absurd h (by simp)
    | some ei => rw [hint] at h; exact get_cur_action_err ei epoch err h

theorem train_model_err (p : EngineP) (e : Nat) (err : PyError)
    (h : (train_model p e).2 = some err) : err.isRuntimeError = true := by
  unfold train_model at h
  cases hfz : should_freeze_aux_models_impl p.freeze e with
  | error e' =>
    rw [hfz] at h
    simp only [Option.some.injEq] at h
    exact h ▸ should_freeze_err p.freeze e e' hfz
  | ok v =>
    rw [hfz] at h
    rcases batch_loop_err p e (nat_range 0 p.num_batches) with h' | h' <;>
      rw [h'] at h
    · exact absurd h (by simp)
    · simp only [Option.some.injEq] at h
      rw [← h]
      rfl

theorem train_model_mem (p : EngineP) (e : Nat) (ev : Ev)
    (h : ev ∈ (train_model p e).1) :
    ∃ b ∈ nat_range 0 p.num_batches, ev = Ev.fwdbwd e b := by
  unfold train_model at h
  cases hfz : should_freeze_aux_models_impl p.freeze e with
  | error e' => rw [hfz] at h; simp at h
  | ok v => rw [hfz] at h; exact batch_loop_mem p e _ ev h

theorem batch_loop_bad_stops (p : EngineP) (e b : Nat)
    (hbad : p.lossIsNanOrInf e b = true) :
    ∀ (k i : Nat), Ev.fwdbwd e b ∈ (batch_loop p e (nat_range i k)).1 →
      (batch_loop p e (nat_range i k)).2 =
        some (PyError.runtimeError "Loss is NaN or Inf, exiting the training...") ∧
      ∀ b', b < b' → Ev.fwdbwd e b' ∉ (batch_loop p e (nat_range i k)).1 := by
  intro k
  induction k with
  | zero => intro i h; simp [nat_range, batch_loop] at h
  | succ k ih =>
    intro i hmem
    simp only [nat_range] at hmem ⊢
    by_cases hbadi : p.lossIsNanOrInf e i = true
    · simp [batch_loop, if_pos hbadi] at hmem
      constructor
      · simp [batch_loop, if_pos hbadi]
      · intro b' hb' hmem'
        simp [batch_loop, if_pos hbadi] at hmem'
        omega
    · by_cases hstop : p.stopAfterBatch e i = true
      · exfalso
        simp only [batch_loop, if_neg hbadi, if_pos hstop,
          List.mem_singleton, Ev.fwdbwd.injEq] at hmem
        rw [hmem.2] at hbad
        exact hbadi hbad
      · simp only [batch_loop, if_neg hbadi, if_neg hstop,
          List.mem_cons] at hmem ⊢
        rcases hmem with heq | h'
        · exfalso
          rw [(Ev.fwdbwd.injEq .. ).mp heq |>.2] at hbad
          exact hbadi hbad
        · obtain ⟨herr, hnone⟩ := ih (i + 1) h'
          refine ⟨herr, fun b' hb' hmem' => ?_⟩
          rcases hmem' with heq' | h''
          · obtain ⟨bmem, hbmem, hbeq⟩ := batch_loop_mem p e _ _ h'
            obtain ⟨-, rfl⟩ := (Ev.fwdbwd.injEq .. ).mp hbeq
            obtain ⟨-, rfl⟩ := (Ev.fwdbwd.injEq .. ).mp heq'
            have := mem_nat_range.mp hbmem
            omega
          · exact hnone b' hb' h''

/-- An event strictly after the batch `b` of epoch `e` in execution order:
either it belongs to a later epoch, or it is a later `forward_backward`
call of epoch `e`. -/
def after_bad (e b : Nat) (ev : Ev) : Prop :=
  e < ev.epochOf ∨ ∃ b', ev = Ev.fwdbwd e b' ∧ b < b'


theorem run_epochs_cons_err (p : EngineP) (i : Nat) (es : List Nat)
    (s : RunState) (err : PyError) (h : (train_model p i).2 = some err)
    (hrt : err.isRuntimeError = true) :
    run_epochs p (i :: es) s =
      ({ s with events := s.events ++ (train_model p i).1 ++ [Ev.trainError i] },
        none) := by
  simp only [run_epochs, h]
  rw [if_pos hrt]

theorem run_epochs_cons_stop (p : EngineP) (i : Nat) (es : List Nat)
    (s : RunState) (h : (train_model p i).2 = none)
    (hstop : p.stopAfterTrain i = true) :
    run_epochs p (i :: es) s =
      ({ s with events := s.events ++ (train_model p i).1 }, none) := by
  simp only [run_epochs, h]
  rw [if_pos hstop]

theorem run_epochs_cons_ok (p : EngineP) (i : Nat) (es : List Nat)
    (s : RunState) (h : (train_model p i).2 = none)
    (hstop : ¬ p.stopAfterTrain i = true) :
    run_epochs p (i :: es) s = run_epochs p es
      { events := s.events ++ (train_model p i).1 ++
          (if should_test p i = true then [Ev.test i] else []),
        accuracy := (if should_test p i = true then p.accVal i else s.accuracy),
        test_acc := ratchet_update s.test_acc
          (if should_test p i = true then p.accVal i else s.accuracy),
        best_metric := (exit_on_plateau_and_choose_best ⟨s.best_metric⟩
          (if should_test p i = true then p.accVal i else s.accuracy)).1.best_metric } := by
  simp only [run_epochs, h]
  rw [if_neg hstop]

theorem run_epochs_bad (p : EngineP) (e b : Nat)
    (hbad : p.lossIsNanOrInf e b = true) :
    ∀ (k i : Nat) (s : RunState),
      Ev.fwdbwd e b ∉ s.events →
      (∀ ev ∈ s.events, ev.epochOf < i) →
      Ev.fwdbwd e b ∈ (run_epochs p (nat_range i k) s).1.events →
      (∀ ev ∈ (run_epochs p (nat_range i k) s).1.events, ¬ after_bad e b ev) ∧
        (run_epochs p (nat_range i k) s).2 = none := by
  intro k
  induction k with
  | zero =>
    intro i s hnot _ hmem
    simp only [nat_range, run_epochs] at hmem
    exact absurd hmem hnot
  | succ k ih =>
    intro i s hnot hlt hmem
    simp only [nat_range] at hmem ⊢
    by_cases hin : Ev.fwdbwd e b ∈ (train_model p i).1
    · -- the diverging batch runs in epoch `i`; train raises and run breaks
      obtain ⟨b0, hb0, hb0eq⟩ := train_model_mem p i _ hin
      obtain ⟨rfl, -⟩ := (Ev.fwdbwd.injEq .. ).mp hb0eq
      have hbatch : train_model p e =
          batch_loop p e (nat_range 0 p.num_batches) := by
        unfold train_model
        cases hfz : should_freeze_aux_models_impl p.freeze (e : Int) with
        | error err =>
          exfalso
          unfold train_model at hin
          rw [hfz] at hin
          simp at hin
        | ok v => rfl
      have hin' : Ev.fwdbwd e b ∈ (batch_loop p e (nat_range 0 p.num_batches)).1 := by
        rw [← hbatch]; exact hin
      obtain ⟨herr, hafter⟩ :=
        batch_loop_bad_stops p e b hbad p.num_batches 0 hin'
      have herr2 : (train_model p e).2 =
          some (PyError.runtimeError "Loss is NaN or Inf, exiting the training...") := by
        rw [hbatch]; exact herr
      rw [run_epochs_cons_err p e _ s _ herr2 rfl]
      refine ⟨fun ev hev => ?_, rfl⟩
      simp only [List.append_assoc, List.mem_append, List.mem_singleton] at hev
      rcases hev with hs | hev | hte
      · rintro (hgt | ⟨b', rfl, -⟩)
        · have := hlt _ hs; omega
        · have := hlt _ hs; simp only [Ev.epochOf] at this; omega
      · rw [hbatch] at hev
        rintro (hgt | ⟨b', rfl, hb'⟩)
        · obtain ⟨b1, -, hb1⟩ := batch_loop_mem p e _ _ hev
          rw [hb1] at hgt
          simp only [Ev.epochOf] at hgt
          omega
        · exact hafter b' hb' hev
      · rw [hte]
        rintro (hgt | ⟨b', heq, -⟩)
        · simp only [Ev.epochOf] at hgt; omega
        · exact Ev.noConfusion heq
    · -- the diverging batch is not reached in epoch `i`
      cases herr : (train_model p i).2 with
      | some err =>
        have hrt : err.isRuntimeError = true := train_model_err p i err herr
        rw [run_epochs_cons_err p i _ s err herr hrt] at hmem
        exfalso
        simp only [List.append_assoc, List.mem_append, List.mem_singleton] at hmem
        rcases hmem with hs | hev | hte
        · exact hnot hs
        · exact hin hev
        · exact Ev.noConfusion hte
      | none =>
        by_cases hstop : p.stopAfterTrain i = true
        · rw [run_epochs_cons_stop p i _ s herr hstop] at hmem
          exfalso
          simp only [List.mem_append] at hmem
          rcases hmem with hs | hev
          · exact hnot hs
          · exact hin hev
        · rw [run_epochs_cons_ok p i _ s herr hstop] at hmem ⊢
          refine ih (i + 1) _ ?_ ?_ hmem
          · intro hmem'
            simp only [List.append_assoc, List.mem_append] at hmem'
            rcases hmem' with hs | hev | hte
            · exact hnot hs
            · exact hin hev
            · cases hte' : should_test p i
              · simp [hte'] at hte
              · simp [hte'] at hte
          · intro ev hev
            simp only [List.append_assoc, List.mem_append] at hev
            rcases hev with hs | hev | hte
            · have := hlt ev hs; omega
            · obtain ⟨b1, -, hb1⟩ := train_model_mem p i ev hev
              rw [hb1]; simp only [Ev.epochOf]; omega
            · cases hte' : should_test p i
              · simp [hte'] at hte
              · simp [hte'] at hte
                rw [hte]; simp only [Ev.epochOf]; omega

/-- C1: if the main-model loss returned by `forward_backward` for a batch
that actually ran is NaN or infinite, training aborts immediately: no later
batch of that epoch runs, no event of any later epoch occurs (`run()`
terminates before the next epoch begins), and `run()` returns normally — the
`RuntimeError` is caught, no exception escapes. -/
theorem nan_loss_aborts_run (p : EngineP) (e b : Nat)
    (hmem : Ev.fwdbwd e b ∈ run_events p)
    (hbad : p.lossIsNanOrInf e b = true) :
    (∀ b', b < b' → Ev.fwdbwd e b' ∉ run_events p) ∧
    (∀ ev ∈ run_events p, ev.epochOf ≤ e) ∧
    (run_model p).2 = none := by
  unfold run_events run_model at hmem ⊢
  by_cases h1 : p.start_epoch = p.max_epoch
  · rw [if_pos h1] at hmem
    simp [initRunState] at hmem
  · rw [if_neg h1] at hmem ⊢
    by_cases h2 : ((p.early_stopping || p.target_metric_is_test_acc)
        && decide (p.eval_freq ≠ 1)) = true
    · rw [if_pos h2] at hmem
      simp [initRunState] at hmem
    · rw [if_neg h2] at hmem ⊢
      obtain ⟨hall, hnone⟩ := run_epochs_bad p e b hbad
        (p.max_epoch - p.start_epoch) p.start_epoch initRunState
        (by simp [initRunState]) (by simp [initRunState]) hmem
      refine ⟨fun b' hb' hmem' => hall _ hmem' (Or.inr ⟨b', rfl, hb'⟩),
        fun ev hev => ?_, hnone⟩
      have h3 := hall ev hev
      simp only [after_bad, not_or] at h3
      exact not_lt.mp h3.1

/-- A concrete engine run used as witness input: two epochs of two batches
where the main loss diverges at epoch 0, batch 0, freezing disabled and no
stop callback. -/
def nan_run_params : EngineP :=
  { start_epoch := 0, max_epoch := 2, num_batches := 2, start_eval := 0,
    eval_freq := -1, early_stopping := false, target_metric_is_test_acc := false,
    freeze := ⟨false, none⟩,
    lossIsNanOrInf := fun e b => decide (e = 0) && decide (b = 0),
    accVal := fun _ => 0,
    stopAfterBatch := fun _ _ => false, stopAfterTrain := fun _ => false }

/-- Witness for `nan_loss_aborts_run`: in `nan_run_params` the diverging batch
(0,0) runs, batch 1 of epoch 0 never runs, and the run returns normally. -/
theorem nan_loss_aborts_run_witness :
    Ev.fwdbwd 0 0 ∈ run_events nan_run_params ∧
    Ev.fwdbwd 0 1 ∉ run_events nan_run_params ∧
    (run_model nan_run_params).2 = none := by
  have hmem : Ev.fwdbwd 0 0 ∈ run_events nan_run_params := by decide
  have h := nan_loss_aborts_run nan_run_params 0 0 hmem (by decide)
  exact ⟨hmem, h.1 1 (by decide), h.2.2⟩

theorem batch_loop_clean (p : EngineP) (e : Nat)
    (hno : ∀ b, p.lossIsNanOrInf e b = false)
    (hnostop : ∀ b, p.stopAfterBatch e b = false) :
    ∀ bs : List Nat, batch_loop p e bs = (bs.map (Ev.fwdbwd e), none) := by
  intro bs
  induction bs with
  | nil => rfl
  | cons b rest ih => simp [batch_loop, hno b, hnostop b, ih]

theorem train_model_clean (p : EngineP) (e : Nat) (v : Bool)
    (hfz : should_freeze_aux_models_impl p.freeze e = Except.ok v)
    (hno : ∀ b, p.lossIsNanOrInf e b = false)
    (hnostop : ∀ b, p.stopAfterBatch e b = false) :
    train_model p e = ((nat_range 0 p.num_batches).map (Ev.fwdbwd e), none) := by
  simp only [train_model, hfz]
  exact batch_loop_clean p e hno hnostop _

/-- The events contributed by one fully-run epoch: all `forward_backward`
calls, then the `test` call when the evaluation decision fires. -/
def epoch_events (p : EngineP) (e : Nat) : List Ev :=
  (nat_range 0 p.num_batches).map (Ev.fwdbwd e) ++
    (if should_test p e = true then [Ev.test e] else [])

/-- The concatenated events of a list of fully-run epochs. -/
def events_of_epochs (p : EngineP) : List Nat → List Ev
  | [] => []
  | e :: rest => epoch_events p e ++ events_of_epochs p rest

theorem run_epochs_clean (p : EngineP)
    (hno : ∀ e b, p.lossIsNanOrInf e b = false)
    (hnostop : ∀ e b, p.stopAfterBatch e b = false)
    (hnostopt : ∀ e, p.stopAfterTrain e = false)
    (hfz : ∀ e : Nat, ∃ v, should_freeze_aux_models_impl p.freeze e = Except.ok v) :
    ∀ (es : List Nat) (s : RunState),
      (run_epochs p es s).1.events = s.events ++ events_of_epochs p es := by
  intro es
  induction es with
  | nil => intro s; simp [run_epochs, events_of_epochs]
  | cons e rest ih =>
    intro s
    obtain ⟨v, hv⟩ := hfz e
    have htm := train_model_clean p e v hv (hno e) (hnostop e)
    have h2 : (train_model p e).2 = none := by rw [htm]
    rw [run_epochs_cons_ok p e rest s h2 (by simp [hnostopt e]), ih]
    simp only [events_of_epochs, epoch_events, htm]
    simp

theorem test_mem_epoch_events (p : EngineP) (e e' : Nat) :
    Ev.test e ∈ epoch_events p e' ↔ e = e' ∧ should_test p e' = true := by
  unfold epoch_events
  simp only [List.mem_append, List.mem_map]
  constructor
  · rintro (⟨b, -, hb⟩ | hte)
    · exact absurd hb (by simp)
    · cases hst : should_test p e'
      · rw [hst] at hte; simp at hte
      · rw [hst] at hte
        simp at hte
        exact ⟨by omega, rfl⟩
  · rintro ⟨rfl, hst⟩
    right
    simp [hst]

theorem test_mem_events_of_epochs (p : EngineP) (e : Nat) :
    ∀ es : List Nat, Ev.test e ∈ events_of_epochs p es ↔
      e ∈ es ∧ should_test p e = true := by
  intro es
  induction es with
  | nil => simp [events_of_epochs]
  | cons e' rest ih =>
    simp only [events_of_epochs, List.mem_append, ih, test_mem_epoch_events,
      List.mem_cons]
    constructor
    · rintro (⟨rfl, h⟩ | ⟨hm, h⟩)
      · exact ⟨Or.inl rfl, h⟩
      · exact ⟨Or.inr hm, h⟩
    · rintro ⟨rfl | hm, h⟩
      · exact Or.inl ⟨rfl, h⟩
      · exact Or.inr ⟨hm, h⟩

/-- C2: in a run that reaches every epoch (no divergence, no stop signal, a
valid freeze configuration and the entry assertions passing), evaluation is
performed in epoch `e` iff `((e+1 ≥ start_eval) and (eval_freq > 0) and
((e+1) % eval_freq == 0) and (e+1 ≠ max_epoch)) or (e == max_epoch - 1)`; in
particular the final epoch is always evaluated. -/
theorem eval_decision (p : EngineP) (e : Nat)
    (h1 : p.start_epoch ≤ e) (h2 : e < p.max_epoch)
    (hno : ∀ e' b', p.lossIsNanOrInf e' b' = false)
    (hnostop : ∀ e' b', p.stopAfterBatch e' b' = false)
    (hnostopt : ∀ e', p.stopAfterTrain e' = false)
    (hfz : ∀ e' : Nat, ∃ v, should_freeze_aux_models_impl p.freeze e' = Except.ok v)
    (hassert : ¬ ((p.early_stopping = true ∨ p.target_metric_is_test_acc = true)
        ∧ p.eval_freq ≠ 1)) :
    Ev.test e ∈ run_events p ↔
      (((e + 1 : Int) ≥ p.start_eval ∧ 0 < p.eval_freq
          ∧ (e + 1 : Int) % p.eval_freq = 0 ∧ (e + 1 : Int) ≠ p.max_epoch)
        ∨ (e : Int) = (p.max_epoch : Int) - 1) := by
  have hne : p.start_epoch ≠ p.max_epoch := by omega
  have hb : ((p.early_stopping || p.target_metric_is_test_acc)
      && decide (p.eval_freq ≠ 1)) = false := by
    cases hE : p.early_stopping with
    | false =>
      cases hT : p.target_metric_is_test_acc with
      | false => simp
      | true =>
        have hF : p.eval_freq = 1 := by
          by_contra hF
          exact hassert ⟨Or.inr hT, hF⟩
        simp [hF]
    | true =>
      have hF : p.eval_freq = 1 := by
        by_contra hF
        exact hassert ⟨Or.inl hE, hF⟩
      simp [hF]
  unfold run_events run_model
  rw [if_neg hne, if_neg (by rw [hb]; simp)]
  rw [run_epochs_clean p hno hnostop hnostopt hfz]
  simp only [initRunState, List.nil_append, test_mem_events_of_epochs,
    mem_nat_range]
  rw [should_test]
  simp only [Bool.or_eq_true, Bool.and_eq_true, decide_eq_true_eq]
  constructor
  · rintro ⟨-, h⟩
    tauto
  · intro h
    refine ⟨⟨h1, by omega⟩, ?_⟩
    tauto

/-- A concrete engine run used as witness input: four clean epochs of one
batch, `eval_freq = 2`, `start_eval = 0`, freezing disabled, no stop
callback. -/
def clean_run_params : EngineP :=
  { start_epoch := 0, max_epoch := 4, num_batches := 1, start_eval := 0,
    eval_freq := 2, early_stopping := false, target_metric_is_test_acc := false,
    freeze := ⟨false, none⟩,
    lossIsNanOrInf := fun _ _ => false,
    accVal := fun _ => 0,
    stopAfterBatch := fun _ _ => false, stopAfterTrain := fun _ => false }

/-- Witness for `eval_decision`: in `clean_run_params` epoch 1 satisfies the
evaluation formula (2 ≥ 0, 2 > 0, 2 % 2 = 0, 2 ≠ 4), so `test` runs there,
and epoch 2 fails it (3 % 2 ≠ 0 and 2 ≠ 3), so `test` does not. -/
theorem eval_decision_witness :
    Ev.test 1 ∈ run_events clean_run_params ∧
    Ev.test 2 ∉ run_events clean_run_params := by
  constructor
  · exact (eval_decision clean_run_params 1 (by decide) (by decide)
      (fun _ _ => rfl) (fun _ _ => rfl) (fun _ => rfl) (fun _ => ⟨false, rfl⟩)
      (by decide)).mpr (by decide)
  · intro hmem
    have h := (eval_decision clean_run_params 2 (by decide) (by decide)
      (fun _ _ => rfl) (fun _ _ => rfl) (fun _ => rfl) (fun _ => ⟨false, rfl⟩)
      (by decide)).mp hmem
    revert h
    decide

/-- C7: with freezing enabled, an `EpochIntervalToValue` whose bounds are both
null makes every `train` call raise `RuntimeError` at entry, before its batch
loop: no `forward_backward` runs in the whole run (the failure is raised in
the first epoch before any training step). -/
theorem invalid_interval_fails_fast (p : EngineP) (vi vo : Bool)
    (hf : p.freeze.should_freeze_aux_models = true)
    (hint : p.freeze.epoch_interval_for_aux_model_freeze =
      some ⟨none, none, vi, vo⟩) :
    (∀ e : Nat, train_model p e =
      ([], some (PyError.runtimeError "Wrong epoch_interval"))) ∧
    (∀ e b : Nat, Ev.fwdbwd e b ∉ run_events p) := by
  have htm : ∀ e : Nat, train_model p e =
      ([], some (PyError.runtimeError "Wrong epoch_interval")) := by
    intro e
    have hfz : should_freeze_aux_models_impl p.freeze e =
        Except.error (PyError.runtimeError "Wrong epoch_interval") := by
      unfold should_freeze_aux_models_impl
      rw [if_neg (by simp [hf]), hint]
      rfl
    simp only [train_model, hfz]
  refine ⟨htm, fun e b hmem => ?_⟩
  unfold run_events run_model at hmem
  by_cases h1 : p.start_epoch = p.max_epoch
  · rw [if_pos h1] at hmem
    simp [initRunState] at hmem
  · rw [if_neg h1] at hmem
    by_cases h2 : ((p.early_stopping || p.target_metric_is_test_acc)
        && decide (p.eval_freq ≠ 1)) = true
    · rw [if_pos h2] at hmem
      simp [initRunState] at hmem
    · rw [if_neg h2] at hmem
      cases hk : p.max_epoch - p.start_epoch with
      | zero =>
        rw [hk] at hmem
        simp [nat_range, run_epochs, initRunState] at hmem
      | succ k =>
        rw [hk] at hmem
        simp only [nat_range] at hmem
        rw [run_epochs_cons_err p p.start_epoch _ initRunState
          (PyError.runtimeError "Wrong epoch_interval")
          (by rw [htm p.start_epoch]) rfl] at hmem
        simp [initRunState, htm p.start_epoch] at hmem

/-- A concrete engine configuration whose freeze interval has both bounds
null. -/
def bad_interval_params : EngineP :=
  { start_epoch := 0, max_epoch := 2, num_batches := 2, start_eval := 0,
    eval_freq := -1, early_stopping := false, target_metric_is_test_acc := false,
    freeze := ⟨true, some ⟨none, none, true, false⟩⟩,
    lossIsNanOrInf := fun _ _ => false,
    accVal := fun _ => 0,
    stopAfterBatch := fun _ _ => false, stopAfterTrain := fun _ => false }

/-- Witness for `invalid_interval_fails_fast` at `bad_interval_params`. -/
theorem invalid_interval_fails_fast_witness :
    train_model bad_interval_params 0 =
      ([], some (PyError.runtimeError "Wrong epoch_interval")) ∧
    Ev.fwdbwd 0 0 ∉ run_events bad_interval_params :=
  ⟨(invalid_interval_fails_fast bad_interval_params true false rfl rfl).1 0,
   (invalid_interval_fails_fast bad_interval_params true false rfl rfl).2 0 0⟩
